import Mathlib

/-!
Verification development for the adventure-log repository.

The reproducible core consists of three pieces of the source:
  * the haversine nearest-waypoint matcher in
    `src/components/WaypointUpload.tsx` (function `haversine` and the
    linear scan inside `handleFile`),
  * the night-watch segmentation and layer-visibility logic in
    `src/components/AdventureMap.tsx` (`isNightUTC`, the segmentation
    loop inside `buildMap`, and `setLayerVisibility`),
  * the EXIF-driven upload flow in `handleFile`.

JavaScript numbers are modelled as real numbers; ISO timestamp strings
are modelled as non-negative epoch seconds, so that the
Date#getUTCHours conversion becomes `t / 3600 % 24`.
-/

namespace AdventureLog

/-- Waypoint record as used by the matcher and the overlay code: array
index, latitude and longitude in degrees, timestamp (epoch seconds). -/
structure Waypoint where
  index : Nat
  lat : ℝ
  lon : ℝ
  time : Nat

/-- Haversine great-circle distance in nautical miles, embedding the
function `haversine` of `src/components/WaypointUpload.tsx`
(`R = 3440.065`, angles converted from degrees to radians). -/
noncomputable def haversine (lat1 lon1 lat2 lon2 : ℝ) : ℝ :=
  let R : ℝ := 3440.065
  let dLat : ℝ := (lat2 - lat1) * Real.pi / 180
  let dLon : ℝ := (lon2 - lon1) * Real.pi / 180
  let a : ℝ := Real.sin (dLat / 2) ^ 2 +
    Real.cos (lat1 * Real.pi / 180) * Real.cos (lat2 * Real.pi / 180) *
      Real.sin (dLon / 2) ^ 2
  2 * R * Real.arcsin (Real.sqrt a)

/-- The linear scan of the nearest-waypoint search in `handleFile`:
state `none` models `best = null, bestDist = Infinity` (any finite
distance beats `Infinity`), and a waypoint replaces the running best
exactly when its distance is strictly smaller. -/
noncomputable def scanNearest {α : Type} (dist : α → ℝ) :
    List α → Option (α × ℝ) → Option (α × ℝ)
  | [], best => best
  | wp :: rest, best =>
    match best with
    | none => scanNearest dist rest (some (wp, dist wp))
    | some (b, bd) =>
      if dist wp < bd then scanNearest dist rest (some (wp, dist wp))
      else scanNearest dist rest (some (b, bd))

/-- Nearest-point matcher: the loop over `WAYPOINTS` in `handleFile`,
returning the matched waypoint together with its computed distance, or
`none` when the dataset is empty. -/
noncomputable def nearestWaypoint (lat lon : ℝ) (wps : List Waypoint) :
    Option (Waypoint × ℝ) :=
  scanNearest (fun wp => haversine lat lon wp.lat wp.lon) wps none

/-- The two user-visible steps of the upload dialog in
`WaypointUpload.tsx`. -/
inductive Step
  | upload
  | confirmGps
deriving DecidableEq

/-- GPS coordinates extracted from EXIF metadata. -/
structure Gps where
  latitude : ℝ
  longitude : ℝ

/-- Observable state written by `handleFile`: the dialog step and the
`exifLocation` and `suggestedWp` component states. -/
structure UploadOutcome where
  step : Step
  exifLocation : Option Gps
  suggestedWp : Option Waypoint

/-- Embedding of `handleFile` of `WaypointUpload.tsx`, as a function of
the extraction result (`none` covers both a missing GPS block and an
extraction failure caught by the `try`/`catch`).  The JavaScript
truthiness test `gps && gps.latitude && gps.longitude` holds exactly
when both numbers are nonzero. -/
noncomputable def handleFile (wps : List Waypoint) (gps : Option Gps) :
    UploadOutcome :=
  match gps with
  | none => ⟨Step.upload, none, none⟩
  | some g =>
    if g.latitude ≠ 0 ∧ g.longitude ≠ 0 then
      ⟨Step.confirmGps, some g,
        (nearestWaypoint g.latitude g.longitude wps).map Prod.fst⟩
    else ⟨Step.upload, none, none⟩

/-- UTC hour of an epoch-seconds timestamp, the embedding of
`new Date(isoTime).getUTCHours()`. -/
def getUTCHours (t : Nat) : Nat := t / 3600 % 24

/-- Night classification of `AdventureMap.tsx`: `h >= 8 && h < 21`. -/
def isNightUTC (t : Nat) : Bool :=
  decide (8 ≤ getUTCHours t) && decide (getUTCHours t < 21)

/-- The night-watch segmentation loop of `buildMap`: night waypoints
are pushed onto the current run, a day waypoint flushes the run (kept
only when its length exceeds 1), and the final run is flushed after
the loop. -/
def nightGo : List Waypoint → List Waypoint → List (List Waypoint) →
    List (List Waypoint)
  | [], cur, acc => if 1 < cur.length then acc ++ [cur] else acc
  | wp :: rest, cur, acc =>
    if isNightUTC wp.time then nightGo rest (cur ++ [wp]) acc
    else nightGo rest [] (if 1 < cur.length then acc ++ [cur] else acc)

/-- Night-watch segments of a waypoint list, as drawn on the
`nightWatch` layer by `buildMap`. -/
def nightSegments (wps : List Waypoint) : List (List Waypoint) :=
  nightGo wps [] []

/-- The eight toggleable highlight keys of `HighlightState`. -/
inductive LayerKey
  | nightWatch
  | topSpeed
  | fastest6h
  | fish
  | storm
  | thursdayIsland
  | diving
  | cairns
deriving DecidableEq

/-- Toggle set: the `HighlightState` record of booleans. -/
structure HighlightState where
  nightWatch : Bool
  topSpeed : Bool
  fastest6h : Bool
  fish : Bool
  storm : Bool
  thursdayIsland : Bool
  diving : Bool
  cairns : Bool

/-- Flag of a key in a toggle set. -/
def highlightFlag (hs : HighlightState) : LayerKey → Bool
  | .nightWatch => hs.nightWatch
  | .topSpeed => hs.topSpeed
  | .fastest6h => hs.fastest6h
  | .fish => hs.fish
  | .storm => hs.storm
  | .thursdayIsland => hs.thursdayIsland
  | .diving => hs.diving
  | .cairns => hs.cairns

/-- The `TOP_SPEED_1H` record of `journey-data` as consumed by
`buildMap`. -/
structure TopSpeedSeg where
  fromLat : ℝ
  fromLon : ℝ
  toLat : ℝ
  toLon : ℝ

/-- The `FASTEST_6H` record of `journey-data` as consumed by
`buildMap`. -/
structure Fastest6h where
  fromIdx : Nat
  toIdx : Nat

/-- Geometry held by one Leaflet layer group: polylines and markers. -/
structure LayerGroup where
  polylines : List (List (ℝ × ℝ))
  markers : List (ℝ × ℝ)

/-- Geometry that `buildMap` places into `layersRef` for each key.
Every key receives a layer group, possibly empty: the night layer gets
one polyline per night segment, the speed layers are populated only
when their `journey-data` record is present, and each event key gets a
single marker. -/
noncomputable def buildLayers (wps : List Waypoint) (top : Option TopSpeedSeg)
    (f6 : Option Fastest6h) : LayerKey → LayerGroup
  | .nightWatch =>
    ⟨(nightSegments wps).map (fun s => s.map fun w => (w.lat, w.lon)), []⟩
  | .topSpeed =>
    match top with
    | some t =>
      ⟨[[(t.fromLat, t.fromLon), (t.toLat, t.toLon)]],
        [((t.fromLat + t.toLat) / 2, (t.fromLon + t.toLon) / 2)]⟩
    | none => ⟨[], []⟩
  | .fastest6h =>
    match f6 with
    | some f =>
      let segPts : List (ℝ × ℝ) :=
        ((wps.drop f.fromIdx).take (f.toIdx + 1 - f.fromIdx)).map
          fun w => (w.lat, w.lon)
      ⟨[segPts],
        if segPts.length = 0 then []
        else [segPts.getD (segPts.length / 2) (0, 0)]⟩
    | none => ⟨[], []⟩
  | .fish => ⟨[], [(-10.938, 132.825)]⟩
  | .storm => ⟨[], [(-16.21, 145.51)]⟩
  | .thursdayIsland => ⟨[], [(-10.587, 142.217)]⟩
  | .diving => ⟨[], [(-15.629, 145.489)]⟩
  | .cairns => ⟨[], [(-16.917, 145.782)]⟩

/-- The `layersRef` table right after `buildMap`: every key is
registered (wrapped in `some`), regardless of whether its geometry is
empty. -/
noncomputable def layersRefAfterBuild (wps : List Waypoint) (top : Option TopSpeedSeg)
    (f6 : Option Fastest6h) : LayerKey → Option LayerGroup :=
  fun k => some (buildLayers wps top f6 k)

/-- The fixed key order used by `setLayerVisibility`. -/
def allLayerKeys : List LayerKey :=
  [.nightWatch, .topSpeed, .fastest6h, .fish, .storm, .thursdayIsland,
    .diving, .cairns]

/-- Render set computed by `setLayerVisibility`: a key is shown when
its layer is registered (`if (!layer) return`) and its flag is true. -/
def renderSet (layers : LayerKey → Option LayerGroup)
    (hs : HighlightState) : List LayerKey :=
  allLayerKeys.filter fun k => (layers k).isSome && highlightFlag hs k

/-- The notion used by the specification: a layer group with a
polyline or a marker has precomputed geometry.  Declared from the
words of the spec in order to compare it with `renderSet`. -/
def specHasGeometry (g : LayerGroup) : Bool :=
  !(g.polylines.isEmpty && g.markers.isEmpty)

/-! Basic lemmas about the nearest-waypoint scan. -/

theorem scanNearest_nil {α : Type} (dist : α → ℝ) (best : Option (α × ℝ)) :
    scanNearest dist [] best = best := rfl

theorem scanNearest_cons_none {α : Type} (dist : α → ℝ) (a : α) (l : List α) :
    scanNearest dist (a :: l) none = scanNearest dist l (some (a, dist a)) := rfl

theorem scanNearest_cons_some {α : Type} (dist : α → ℝ) (a : α) (l : List α)
    (b : α) (bd : ℝ) :
    scanNearest dist (a :: l) (some (b, bd)) =
      if dist a < bd then scanNearest dist l (some (a, dist a))
      else scanNearest dist l (some (b, bd)) := rfl

/-- Characterization of the scan started from a seeded best pair: the
result is either the seed itself (and then the seed bounds every
scanned distance from below) or a strictly closer element of the list,
located after a block of strictly farther elements and before a block
of not-closer elements. -/
theorem scanNearest_some_char {α : Type} (dist : α → ℝ) :
    ∀ (l : List α) (b : α) (db : ℝ), ∃ b' db',
      scanNearest dist l (some (b, db)) = some (b', db') ∧
      ((b' = b ∧ db' = db ∧ ∀ x ∈ l, db ≤ dist x) ∨
       (∃ l₁ l₂, l = l₁ ++ b' :: l₂ ∧ db' = dist b' ∧ db' < db ∧
         (∀ x ∈ l₁, db' < dist x) ∧ (∀ x ∈ l₂, db' ≤ dist x))) := by
  intro l
  induction l with
  | nil =>
    intro b db
    exact ⟨b, db, rfl, Or.inl ⟨rfl, rfl, by simp⟩⟩
  | cons a r ih =>
    intro b db
    rw [scanNearest_cons_some]
    by_cases h : dist a < db
    · rw [if_pos h]
      obtain ⟨b', db', he, hc⟩ := ih a (dist a)
      refine ⟨b', db', he, Or.inr ?_⟩
      rcases hc with ⟨hb, hd, hall⟩ | ⟨l₁, l₂, hl, hd, hlt, h1, h2⟩
      · subst hb; subst hd
        exact ⟨[], r, by simp, rfl, h, by simp, hall⟩
      · refine ⟨a :: l₁, l₂, by simp [hl], hd, lt_trans hlt h, ?_, h2⟩
        intro x hx
        rcases List.mem_cons.mp hx with hx | hx
        · subst hx; exact hlt
        · exact h1 x hx
    · rw [if_neg h]
      have hba : db ≤ dist a := not_lt.mp h
      obtain ⟨b', db', he, hc⟩ := ih b db
      refine ⟨b', db', he, ?_⟩
      rcases hc with ⟨hb, hd, hall⟩ | ⟨l₁, l₂, hl, hd, hlt, h1, h2⟩
      · refine Or.inl ⟨hb, hd, ?_⟩
        intro x hx
        rcases List.mem_cons.mp hx with hx | hx
        · subst hx; exact hba
        · exact hall x hx
      · refine Or.inr ⟨a :: l₁, l₂, by simp [hl], hd, hlt, ?_, h2⟩
        intro x hx
        rcases List.mem_cons.mp hx with hx | hx
        · subst hx; exact lt_of_lt_of_le hlt hba
        · exact h1 x hx

/-- Characterization of the scan from the initial `Infinity` state on a
non-empty list: the match is an element of the list at its computed
distance, every element located before the match is strictly farther,
and every element after it is at least as far. -/
theorem scanNearest_none_char {α : Type} (dist : α → ℝ) (a : α) (l : List α) :
    ∃ w d l₁ l₂, scanNearest dist (a :: l) none = some (w, d) ∧
      d = dist w ∧ a :: l = l₁ ++ w :: l₂ ∧
      (∀ x ∈ l₁, d < dist x) ∧ (∀ x ∈ l₂, d ≤ dist x) := by
  rw [scanNearest_cons_none]
  obtain ⟨b', db', he, hc⟩ := scanNearest_some_char dist l a (dist a)
  rcases hc with ⟨hb, hd, hall⟩ | ⟨l₁, l₂, hl, hd, hlt, h1, h2⟩
  · refine ⟨b', db', [], l, he, ?_, by simp [hb], by simp, ?_⟩
    · rw [hd, hb]
    · intro x hx
      rw [hd]
      exact hall x hx
  · refine ⟨b', db', a :: l₁, l₂, he, hd, by simp [hl], ?_, h2⟩
    intro x hx
    rcases List.mem_cons.mp hx with hx | hx
    · subst hx; exact hlt
    · exact h1 x hx

/-- The matcher never returns `none` on a non-empty list, and returns
`none` on the empty list. -/
theorem scanNearest_none_iff {α : Type} (dist : α → ℝ) (wps : List α) :
    scanNearest dist wps none = none ↔ wps = [] := by
  cases wps with
  | nil => simp [scanNearest_nil]
  | cons a l =>
    obtain ⟨w, d, l₁, l₂, he, -⟩ := scanNearest_none_char dist a l
    simp [he]

/-- The distance returned by the scan bounds the distance of every
element of the list from below. -/
theorem scanNearest_min_le {α : Type} (dist : α → ℝ) {wps : List α}
    {p : α × ℝ} (hs : scanNearest dist wps none = some p) {x : α}
    (hx : x ∈ wps) : p.2 ≤ dist x := by
  cases wps with
  | nil => simp [scanNearest_nil] at hs
  | cons a l =>
    obtain ⟨w, d, l₁, l₂, he, hd, hsplit, h1, h2⟩ :=
      scanNearest_none_char dist a l
    rw [he] at hs
    injection hs with hval
    subst hval
    show d ≤ dist x
    rw [hsplit] at hx
    rcases List.mem_append.mp hx with hx | hx
    · exact le_of_lt (h1 x hx)
    · rcases List.mem_cons.mp hx with hx | hx
      · subst hx; exact le_of_eq hd
      · exact h2 x hx

/-- Splitting the scan over an append. -/
theorem scanNearest_append {α : Type} (dist : α → ℝ) :
    ∀ (l l' : List α) (s : Option (α × ℝ)),
      scanNearest dist (l ++ l') s = scanNearest dist l' (scanNearest dist l s) := by
  intro l
  induction l with
  | nil => intro l' s; rfl
  | cons a r ih =>
    intro l' s
    match s with
    | none =>
      rw [List.cons_append, scanNearest_cons_none, scanNearest_cons_none, ih]
    | some (b, bd) =>
      rw [List.cons_append, scanNearest_cons_some, scanNearest_cons_some]
      by_cases h : dist a < bd
      · rw [if_pos h, if_pos h, ih]
      · rw [if_neg h, if_neg h, ih]

/-- An element at least as far as the running best never replaces it. -/
theorem scanNearest_skip {α : Type} (dist : α → ℝ) (y : α) (l : List α)
    (b : α) (db : ℝ) (h : db ≤ dist y) :
    scanNearest dist (y :: l) (some (b, db)) =
      scanNearest dist l (some (b, db)) := by
  rw [scanNearest_cons_some, if_neg (not_lt.mpr h)]

/-! Basic lemmas about the haversine distance. -/

/-- The haversine distance of a point to itself is exactly zero. -/
theorem haversine_self (lat lon : ℝ) : haversine lat lon lat lon = 0 := by
  simp [haversine]

/-- The haversine distance is non-negative. -/
theorem haversine_nonneg (a b c d : ℝ) : 0 ≤ haversine a b c d := by
  unfold haversine
  have h1 : (0 : ℝ) ≤ 2 * 3440.065 := by norm_num
  exact mul_nonneg h1 (Real.arcsin_nonneg.mpr (Real.sqrt_nonneg _))

/-- Characterization of the nearest-waypoint matcher on a non-empty
dataset. -/
theorem nearestWaypoint_char (lat lon : ℝ) (wps : List Waypoint)
    (h : wps ≠ []) :
    ∃ w d l₁ l₂, nearestWaypoint lat lon wps = some (w, d) ∧
      d = haversine lat lon w.lat w.lon ∧ wps = l₁ ++ w :: l₂ ∧
      (∀ x ∈ l₁, d < haversine lat lon x.lat x.lon) ∧
      (∀ x ∈ l₂, d ≤ haversine lat lon x.lat x.lon) := by
  match wps with
  | [] => exact absurd rfl h
  | a :: l => exact scanNearest_none_char _ a l

/-! Example waypoints used by concrete statements. -/

/-- Waypoint at UTC midnight (a day waypoint under the code rule). -/
def exN0 : Waypoint := ⟨0, -12.4, 130.8, 0⟩

/-- Waypoint at 19:00 UTC (night). -/
def exN19 : Waypoint := ⟨1, -12.5, 131.0, 68400⟩

/-- Waypoint at 20:00 UTC (night). -/
def exN20 : Waypoint := ⟨2, -12.6, 131.2, 72000⟩

/-- Waypoint at 23:00 UTC (day). -/
def exN23 : Waypoint := ⟨3, -12.7, 131.4, 82800⟩

/-- A sample waypoint for the upload-flow statements. -/
def exW : Waypoint := ⟨0, -12.4, 130.8, 0⟩

/-- Toggle set with every flag on. -/
def hsAllTrue : HighlightState :=
  ⟨true, true, true, true, true, true, true, true⟩

/-- Toggle set with every flag off. -/
def hsAllFalse : HighlightState :=
  ⟨false, false, false, false, false, false, false, false⟩

/-- C5: a waypoint is classified as night exactly when its UTC hour
lies in [8, 21); on the example dataset with waypoints at UTC 00:00
(day), 19:00 (night), 20:00 (night) and 23:00 (day) the segmentation
returns exactly one segment, holding exactly the two night
waypoints. -/
theorem night_rule_and_example :
    (∀ t : Nat, isNightUTC t = true ↔
      8 ≤ getUTCHours t ∧ getUTCHours t < 21) ∧
    nightSegments [exN0, exN19, exN20, exN23] = [[exN19, exN20]] := by
  constructor
  · intro t
    simp [isNightUTC]
  · rfl

/-- C10: when the extracted GPS metadata has latitude exactly 0 or
longitude exactly 0, the JavaScript truthiness test treats the photo
as having no location: the flow stays in the upload step with no
suggestion, so the save falls back to the originally selected
waypoint. -/
theorem handleFile_zero_coordinate (wps : List Waypoint) (g : Gps)
    (h : g.latitude = 0 ∨ g.longitude = 0) :
    handleFile wps (some g) = ⟨Step.upload, none, none⟩ := by
  have hne : ¬(g.latitude ≠ 0 ∧ g.longitude ≠ 0) := by
    rcases h with h | h
    · exact fun hc => hc.1 h
    · exact fun hc => hc.2 h
  simp only [handleFile, if_neg hne]

/-- Witness for `handleFile_zero_coordinate` at latitude 0,
longitude 5. -/
theorem handleFile_zero_coordinate_witness :
    ((0 : ℝ) = 0 ∨ (5 : ℝ) = 0) ∧
    handleFile [exW] (some ⟨0, 5⟩) = ⟨Step.upload, none, none⟩ :=
  ⟨Or.inl rfl, handleFile_zero_coordinate [exW] ⟨0, 5⟩ (Or.inl rfl)⟩

/-- C3 amended: the matcher returns no match exactly on the empty
dataset — silently, without signaling any error — and for every
non-empty dataset and arbitrary coordinates it always returns a match
(never a spurious no-match). -/
theorem nearestWaypoint_none_iff_empty (lat lon : ℝ) (wps : List Waypoint) :
    nearestWaypoint lat lon wps = none ↔ wps = [] :=
  scanNearest_none_iff _ _

/-- C3 counterexample: on an empty dataset the upload flow does not
signal an `EmptyDataset` error; it silently moves to the confirm step
with a null suggestion. -/
theorem empty_dataset_silent :
    handleFile [] (some ⟨1, 1⟩) = ⟨Step.confirmGps, some ⟨1, 1⟩, none⟩ := by
  have h : (⟨1, 1⟩ : Gps).latitude ≠ 0 ∧ (⟨1, 1⟩ : Gps).longitude ≠ 0 := by
    constructor <;> norm_num [Gps.latitude, Gps.longitude]
  simp only [handleFile, if_pos h, nearestWaypoint, scanNearest_nil, Option.map_none']

/-- C4 amended: the matcher performs no range validation at all.  Any
extracted coordinate pair with nonzero latitude and longitude — in or
out of the valid geographic ranges — is matched against the dataset
and moves the flow to the confirm step with a suggested waypoint; only
a missing GPS block, an extraction failure, or a zero coordinate falls
back to the manually selected waypoint. -/
theorem handleFile_no_validation (wps : List Waypoint) (g : Gps)
    (h1 : g.latitude ≠ 0) (h2 : g.longitude ≠ 0) (hw : wps ≠ []) :
    (handleFile wps (some g)).step = Step.confirmGps ∧
    ((handleFile wps (some g)).suggestedWp).isSome = true := by
  obtain ⟨w, d, l₁, l₂, he, -⟩ := nearestWaypoint_char g.latitude g.longitude wps hw
  simp [handleFile, if_pos (And.intro h1 h2), he, Option.map_some']

/-- Witness for `handleFile_no_validation`: latitude 200 and longitude
300 are far out of range yet still produce a suggested match. -/
theorem handleFile_no_validation_witness :
    (200 : ℝ) ≠ 0 ∧ (300 : ℝ) ≠ 0 ∧ ([exW] : List Waypoint) ≠ [] ∧
    ((handleFile [exW] (some ⟨200, 300⟩)).step = Step.confirmGps ∧
     ((handleFile [exW] (some ⟨200, 300⟩)).suggestedWp).isSome = true) :=
  ⟨by norm_num, by norm_num, by simp,
    handleFile_no_validation [exW] ⟨200, 300⟩ (by norm_num) (by norm_num)
      (by simp)⟩

/-- C4 counterexample: coordinates (200, 300), outside every valid
range, are not rejected: the flow enters the confirm step and suggests
a waypoint instead of falling back to the selected one. -/
theorem out_of_range_coordinate_matched :
    handleFile [exW] (some ⟨200, 300⟩) =
      ⟨Step.confirmGps, some ⟨200, 300⟩, some exW⟩ := by
  have h : (⟨200, 300⟩ : Gps).latitude ≠ 0 ∧ (⟨200, 300⟩ : Gps).longitude ≠ 0 := by
    constructor <;> norm_num [Gps.latitude, Gps.longitude]
  simp only [handleFile, if_pos h, nearestWaypoint, scanNearest_cons_none,
    scanNearest_nil, Option.map_some']

/-- C7 amended: a key is in the render set exactly when its flag is
true.  Every key receives a registered layer group from `buildMap`
(possibly with empty geometry), so the presence of precomputed
geometry plays no role; with all flags off the render set is empty. -/
theorem renderSet_eq_flag_filter (wps : List Waypoint)
    (top : Option TopSpeedSeg) (f6 : Option Fastest6h)
    (hs : HighlightState) :
    renderSet (layersRefAfterBuild wps top f6) hs =
      allLayerKeys.filter (fun k => highlightFlag hs k) ∧
    renderSet (layersRefAfterBuild wps top f6) hsAllFalse = [] := by
  have h1 : ∀ hs' : HighlightState,
      renderSet (layersRefAfterBuild wps top f6) hs' =
        allLayerKeys.filter (fun k => highlightFlag hs' k) := by
    intro hs'
    simp [renderSet, layersRefAfterBuild]
  refine ⟨h1 hs, ?_⟩
  rw [h1 hsAllFalse]
  simp [allLayerKeys, highlightFlag, hsAllFalse]

/-- The matched distance bounds the distance of every waypoint of the
dataset from below. -/
theorem nearestWaypoint_min_le (lat lon : ℝ) {wps : List Waypoint}
    {p : Waypoint × ℝ} (hs : nearestWaypoint lat lon wps = some p)
    {x : Waypoint} (hx : x ∈ wps) :
    p.2 ≤ haversine lat lon x.lat x.lon := by
  unfold nearestWaypoint at hs
  exact scanNearest_min_le _ hs hx

/-- The matched waypoint belongs to the dataset and the reported
distance is its computed haversine distance. -/
theorem nearestWaypoint_attained (lat lon : ℝ) {wps : List Waypoint}
    {p : Waypoint × ℝ} (hs : nearestWaypoint lat lon wps = some p) :
    p.1 ∈ wps ∧ p.2 = haversine lat lon p.1.lat p.1.lon := by
  cases wps with
  | nil => simp [nearestWaypoint, scanNearest_nil] at hs
  | cons a l =>
    obtain ⟨w, d, l₁, l₂, he, hd, hsplit, h1, h2⟩ :=
      scanNearest_none_char (fun wp => haversine lat lon wp.lat wp.lon) a l
    have hs' : scanNearest (fun wp => haversine lat lon wp.lat wp.lon)
        (a :: l) none = some p := hs
    rw [he] at hs'
    injection hs' with hval
    subst hval
    refine ⟨?_, hd⟩
    rw [hsplit]
    exact List.mem_append_right _ (List.mem_cons_self _ _)

/-- When the query equals the exact coordinates of some waypoint, the
matcher returns a waypoint whose computed distance is exactly zero,
namely the earliest-indexed waypoint at haversine distance zero from
the query: every waypoint located before it is at strictly positive
distance. -/
theorem nearest_zero_distance (lat lon : ℝ) (wps : List Waypoint)
    (w : Waypoint) (hw : w ∈ wps) (hla : w.lat = lat) (hlo : w.lon = lon) :
    ∃ w' l₁ l₂, wps = l₁ ++ w' :: l₂ ∧
      nearestWaypoint lat lon wps = some (w', 0) ∧
      haversine lat lon w'.lat w'.lon = 0 ∧
      ∀ x ∈ l₁, 0 < haversine lat lon x.lat x.lon := by
  obtain ⟨w', d, l₁, l₂, he, hd, hsplit, h1, h2⟩ :=
    nearestWaypoint_char lat lon wps (List.ne_nil_of_mem hw)
  have hwz : haversine lat lon w.lat w.lon = 0 := by
    rw [hla, hlo, haversine_self]
  have hle : d ≤ 0 := by
    have h := nearestWaypoint_min_le lat lon he hw
    rw [hwz] at h
    exact h
  have hge : 0 ≤ d := hd ▸ haversine_nonneg lat lon w'.lat w'.lon
  have hz : d = 0 := le_antisymm hle hge
  subst hz
  refine ⟨w', l₁, l₂, hsplit, he, hd.symm, ?_⟩
  intro x hx
  exact h1 x hx

/-- Within the standard coordinate ranges — latitudes strictly between
-90 and 90, longitudes in (-180, 180] — the haversine distance
vanishes exactly on coordinate equality.  Outside these ranges the
real-number model would admit spurious zeros (pole points, longitudes
differing by a full turn) that the floating-point program does not
produce, so the range restriction is where the real model and the
program agree. -/
theorem haversine_eq_zero_iff (lat1 lon1 lat2 lon2 : ℝ)
    (ha1 : -90 < lat1) (ha2 : lat1 < 90) (hb1 : -90 < lat2) (hb2 : lat2 < 90)
    (hc1 : -180 < lon1) (hc2 : lon1 ≤ 180) (hd1 : -180 < lon2)
    (hd2 : lon2 ≤ 180) :
    haversine lat1 lon1 lat2 lon2 = 0 ↔ lat2 = lat1 ∧ lon2 = lon1 := by
  have hπ := Real.pi_pos
  constructor
  · intro h0
    simp only [haversine] at h0
    set A : ℝ := Real.sin ((lat2 - lat1) * Real.pi / 180 / 2) ^ 2 +
      Real.cos (lat1 * Real.pi / 180) * Real.cos (lat2 * Real.pi / 180) *
        Real.sin ((lon2 - lon1) * Real.pi / 180 / 2) ^ 2 with hA
    have harc : Real.arcsin (Real.sqrt A) = 0 := by
      rcases mul_eq_zero.mp h0 with h | h
      · norm_num at h
      · exact h
    have hcos1 : 0 < Real.cos (lat1 * Real.pi / 180) :=
      Real.cos_pos_of_mem_Ioo ⟨by nlinarith, by nlinarith⟩
    have hcos2 : 0 < Real.cos (lat2 * Real.pi / 180) :=
      Real.cos_pos_of_mem_Ioo ⟨by nlinarith, by nlinarith⟩
    have ht1 : 0 ≤ Real.sin ((lat2 - lat1) * Real.pi / 180 / 2) ^ 2 :=
      sq_nonneg _
    have ht2 : 0 ≤ Real.cos (lat1 * Real.pi / 180) *
        Real.cos (lat2 * Real.pi / 180) *
        Real.sin ((lon2 - lon1) * Real.pi / 180 / 2) ^ 2 :=
      mul_nonneg (mul_nonneg hcos1.le hcos2.le) (sq_nonneg _)
    have hA_nonneg : 0 ≤ A := by
      rw [hA]
      exact add_nonneg ht1 ht2
    have hA0 : A = 0 := by
      by_contra hne
      have hApos : 0 < A := lt_of_le_of_ne hA_nonneg (Ne.symm hne)
      have h1 : 0 < Real.sqrt A := Real.sqrt_pos.mpr hApos
      have h2 : 0 < Real.arcsin (Real.sqrt A) := Real.arcsin_pos.mpr h1
      linarith
    rw [hA] at hA0
    have hsin1 : Real.sin ((lat2 - lat1) * Real.pi / 180 / 2) = 0 := by
      have h1 : Real.sin ((lat2 - lat1) * Real.pi / 180 / 2) ^ 2 = 0 := by
        linarith
      exact (pow_eq_zero_iff (by norm_num : (2 : ℕ) ≠ 0)).mp h1
    have hsin2 : Real.sin ((lon2 - lon1) * Real.pi / 180 / 2) = 0 := by
      have hprod : Real.cos (lat1 * Real.pi / 180) *
          Real.cos (lat2 * Real.pi / 180) *
          Real.sin ((lon2 - lon1) * Real.pi / 180 / 2) ^ 2 = 0 := by
        linarith
      rcases mul_eq_zero.mp hprod with h | h
      · rcases mul_eq_zero.mp h with h' | h'
        · exact absurd h' (ne_of_gt hcos1)
        · exact absurd h' (ne_of_gt hcos2)
      · exact (pow_eq_zero_iff (by norm_num : (2 : ℕ) ≠ 0)).mp h
    constructor
    · have hlb : -Real.pi < (lat2 - lat1) * Real.pi / 180 / 2 := by nlinarith
      have hub : (lat2 - lat1) * Real.pi / 180 / 2 < Real.pi := by nlinarith
      have hz := (Real.sin_eq_zero_iff_of_lt_of_lt hlb hub).mp hsin1
      have hm : (lat2 - lat1) * Real.pi = 0 := by linarith
      rcases mul_eq_zero.mp hm with h | h
      · exact sub_eq_zero.mp h
      · exact absurd h Real.pi_ne_zero
    · have hlb : -Real.pi < (lon2 - lon1) * Real.pi / 180 / 2 := by nlinarith
      have hub : (lon2 - lon1) * Real.pi / 180 / 2 < Real.pi := by nlinarith
      have hz := (Real.sin_eq_zero_iff_of_lt_of_lt hlb hub).mp hsin2
      have hm : (lon2 - lon1) * Real.pi = 0 := by linarith
      rcases mul_eq_zero.mp hm with h | h
      · exact sub_eq_zero.mp h
      · exact absurd h Real.pi_ne_zero
  · rintro ⟨h1, h2⟩
    rw [h1, h2]
    exact haversine_self lat1 lon1

/-- C1: within the standard coordinate ranges, if the query coordinate
equals some waypoint's exact latitude and longitude, the matcher
returns a waypoint carrying exactly those coordinates — the
earliest-indexed one if the coordinates are duplicated — with computed
distance exactly 0, hence 0 within any epsilon.  The range hypothesis
confines the statement to where the real-number model agrees with the
floating-point program: only there does a vanishing haversine distance
coincide with coordinate equality. -/
theorem nearest_exact_coordinate (lat lon : ℝ) (wps : List Waypoint)
    (w : Waypoint) (hw : w ∈ wps) (hla : w.lat = lat) (hlo : w.lon = lon)
    (hrange : ∀ x ∈ wps,
      -90 < x.lat ∧ x.lat < 90 ∧ -180 < x.lon ∧ x.lon ≤ 180) :
    ∃ w' l₁ l₂, wps = l₁ ++ w' :: l₂ ∧
      nearestWaypoint lat lon wps = some (w', 0) ∧
      w'.lat = lat ∧ w'.lon = lon ∧
      ∀ x ∈ l₁, ¬(x.lat = lat ∧ x.lon = lon) := by
  obtain ⟨w', l₁, l₂, hsplit, he, hzero, hpos⟩ :=
    nearest_zero_distance lat lon wps w hw hla hlo
  obtain ⟨hwa1, hwa2, hwo1, hwo2⟩ := hrange w hw
  have hw'mem : w' ∈ wps := by
    rw [hsplit]
    exact List.mem_append_right _ (List.mem_cons_self _ _)
  obtain ⟨hva1, hva2, hvo1, hvo2⟩ := hrange w' hw'mem
  have hcoord : w'.lat = lat ∧ w'.lon = lon := by
    have h := (haversine_eq_zero_iff lat lon w'.lat w'.lon
      (by rw [← hla]; exact hwa1) (by rw [← hla]; exact hwa2)
      hva1 hva2
      (by rw [← hlo]; exact hwo1) (by rw [← hlo]; exact hwo2)
      hvo1 hvo2).mp hzero
    exact h
  refine ⟨w', l₁, l₂, hsplit, he, hcoord.1, hcoord.2, ?_⟩
  intro x hx hcx
  have hxz : haversine lat lon x.lat x.lon = 0 := by
    rw [hcx.1, hcx.2, haversine_self]
  have := hpos x hx
  linarith

/-- Range check for the sample waypoint `exW`. -/
theorem exW_range : ∀ x ∈ ([exW] : List Waypoint),
    -90 < x.lat ∧ x.lat < 90 ∧ -180 < x.lon ∧ x.lon ≤ 180 := by
  intro x hx
  rw [List.mem_singleton] at hx
  subst hx
  refine ⟨?_, ?_, ?_, ?_⟩ <;> norm_num [exW]

/-- Witness for `nearest_exact_coordinate` on the singleton dataset
`[exW]` queried at the exact coordinates of `exW`. -/
theorem nearest_exact_coordinate_witness :
    exW ∈ ([exW] : List Waypoint) ∧ exW.lat = -12.4 ∧ exW.lon = 130.8 ∧
    (∀ x ∈ ([exW] : List Waypoint),
      -90 < x.lat ∧ x.lat < 90 ∧ -180 < x.lon ∧ x.lon ≤ 180) ∧
    (∃ w' l₁ l₂, ([exW] : List Waypoint) = l₁ ++ w' :: l₂ ∧
      nearestWaypoint (-12.4) 130.8 [exW] = some (w', 0) ∧
      w'.lat = -12.4 ∧ w'.lon = 130.8 ∧
      ∀ x ∈ l₁, ¬(x.lat = -12.4 ∧ x.lon = 130.8)) :=
  ⟨List.mem_cons_self exW [], rfl, rfl, exW_range,
    nearest_exact_coordinate (-12.4) 130.8 [exW] exW
      (List.mem_cons_self exW []) rfl rfl exW_range⟩

/-- C2: deterministic earlier-index tie-break.  If a waypoint `y`
appears after a waypoint `x` whose computed distance is equal, then
`y` never becomes the match: deleting `y` does not change the result
of the scan at all, so the earlier-indexed waypoint of any tied pair
wins. -/
theorem nearest_tie_earlier_wins (lat lon : ℝ) (l₁ l₂ l₃ : List Waypoint)
    (x y : Waypoint)
    (hd : haversine lat lon x.lat x.lon = haversine lat lon y.lat y.lon) :
    nearestWaypoint lat lon (l₁ ++ (x :: (l₂ ++ (y :: l₃)))) =
      nearestWaypoint lat lon (l₁ ++ (x :: (l₂ ++ l₃))) := by
  simp only [nearestWaypoint]
  set dist := fun wp : Waypoint => haversine lat lon wp.lat wp.lon with hdist
  have hx : x ∈ l₁ ++ (x :: l₂) :=
    List.mem_append_right _ (List.mem_cons_self _ _)
  have e1 : scanNearest dist ((l₁ ++ (x :: l₂)) ++ (y :: l₃)) none =
      scanNearest dist (y :: l₃) (scanNearest dist (l₁ ++ (x :: l₂)) none) :=
    scanNearest_append dist (l₁ ++ (x :: l₂)) (y :: l₃) none
  have e2 : scanNearest dist ((l₁ ++ (x :: l₂)) ++ l₃) none =
      scanNearest dist l₃ (scanNearest dist (l₁ ++ (x :: l₂)) none) :=
    scanNearest_append dist (l₁ ++ (x :: l₂)) l₃ none
  have hrw1 : l₁ ++ (x :: (l₂ ++ (y :: l₃))) =
      (l₁ ++ (x :: l₂)) ++ (y :: l₃) := by simp
  have hrw2 : l₁ ++ (x :: (l₂ ++ l₃)) = (l₁ ++ (x :: l₂)) ++ l₃ := by simp
  rw [hrw1, hrw2, e1, e2]
  rcases hs : scanNearest dist (l₁ ++ (x :: l₂)) none with _ | ⟨b, db⟩
  · exfalso
    have h := (scanNearest_none_iff dist (l₁ ++ (x :: l₂))).mp hs
    simp at h
  · have hle : db ≤ dist y := by
      have h := scanNearest_min_le dist hs hx
      calc db ≤ dist x := h
        _ = dist y := hd
    exact scanNearest_skip dist y l₃ b db hle

/-- Witness for `nearest_tie_earlier_wins`: a duplicated waypoint is
an exact tie, and dropping the later copy leaves the result
unchanged. -/
theorem nearest_tie_earlier_wins_witness :
    haversine 0 0 exW.lat exW.lon = haversine 0 0 exW.lat exW.lon ∧
    nearestWaypoint 0 0 [exW, exW] = nearestWaypoint 0 0 [exW] :=
  ⟨rfl, nearest_tie_earlier_wins 0 0 [] [] [] exW exW rfl⟩

/-- A second sample waypoint. -/
def exV : Waypoint := ⟨1, -13.0, 131.9, 3600⟩

/-- C8: the minimal distance found by the matcher is invariant under
any permutation of the stored waypoint order. -/
theorem nearest_dist_perm_invariant (lat lon : ℝ) (wps wps' : List Waypoint)
    (hp : wps.Perm wps') :
    (nearestWaypoint lat lon wps).map Prod.snd =
      (nearestWaypoint lat lon wps').map Prod.snd := by
  rcases h1 : nearestWaypoint lat lon wps with _ | ⟨w, d⟩
  · have hw : wps = [] := (scanNearest_none_iff _ _).mp h1
    subst hw
    have hw' : wps' = [] := hp.symm.eq_nil
    subst hw'
    rfl
  · rcases h2 : nearestWaypoint lat lon wps' with _ | ⟨w', d'⟩
    · exfalso
      have hw' : wps' = [] := (scanNearest_none_iff _ _).mp h2
      subst hw'
      have hw : wps = [] := hp.eq_nil
      subst hw
      simp [nearestWaypoint, scanNearest_nil] at h1
    · obtain ⟨hm, hdw⟩ := nearestWaypoint_attained lat lon h1
      obtain ⟨hm', hdw'⟩ := nearestWaypoint_attained lat lon h2
      have hab : d ≤ d' := by
        have h := nearestWaypoint_min_le lat lon h1 (hp.mem_iff.mpr hm')
        rw [← hdw'] at h
        exact h
      have hba : d' ≤ d := by
        have h := nearestWaypoint_min_le lat lon h2 (hp.mem_iff.mp hm)
        rw [← hdw] at h
        exact h
      have hdd : d = d' := le_antisymm hab hba
      simp [hdd]

/-- Witness for `nearest_dist_perm_invariant` on the swap of a
two-waypoint dataset. -/
theorem nearest_dist_perm_invariant_witness :
    (([exW, exV] : List Waypoint).Perm [exV, exW]) ∧
    (nearestWaypoint 0 0 [exW, exV]).map Prod.snd =
      (nearestWaypoint 0 0 [exV, exW]).map Prod.snd :=
  ⟨List.Perm.swap exV exW [],
    nearest_dist_perm_invariant 0 0 _ _ (List.Perm.swap exV exW [])⟩

/-! Structural lemmas about the night-watch segmentation loop. -/

theorem nightGo_nil (cur : List Waypoint) (acc : List (List Waypoint)) :
    nightGo [] cur acc = if 1 < cur.length then acc ++ [cur] else acc := rfl

theorem nightGo_cons (w : Waypoint) (rest cur : List Waypoint)
    (acc : List (List Waypoint)) :
    nightGo (w :: rest) cur acc =
      if isNightUTC w.time then nightGo rest (cur ++ [w]) acc
      else nightGo rest []
        (if 1 < cur.length then acc ++ [cur] else acc) := rfl

/-- The accumulator of the segmentation loop is append-only. -/
theorem nightGo_acc (rest : List Waypoint) :
    ∀ (cur : List Waypoint) (acc : List (List Waypoint)),
      nightGo rest cur acc = acc ++ nightGo rest cur [] := by
  induction rest with
  | nil =>
    intro cur acc
    rw [nightGo_nil, nightGo_nil]
    by_cases h : 1 < cur.length
    · rw [if_pos h, if_pos h, List.nil_append]
    · rw [if_neg h, if_neg h, List.append_nil]
  | cons w r ih =>
    intro cur acc
    rw [nightGo_cons, nightGo_cons]
    by_cases h : isNightUTC w.time
    · rw [if_pos h, if_pos h, ih (cur ++ [w]) acc]
    · rw [if_neg h, if_neg h]
      by_cases h2 : 1 < cur.length
      · rw [if_pos h2, if_pos h2, ih [] (acc ++ [cur]),
          ih [] ([] ++ [cur]), List.nil_append, List.append_assoc]
      · rw [if_neg h2, if_neg h2, ih [] acc]

/-- Every segment produced by the loop has at least two waypoints,
provided the incoming accumulator does. -/
theorem nightGo_length (rest : List Waypoint) :
    ∀ (cur : List Waypoint) (acc : List (List Waypoint)),
      (∀ s ∈ acc, 2 ≤ s.length) →
      ∀ s ∈ nightGo rest cur acc, 2 ≤ s.length := by
  induction rest with
  | nil =>
    intro cur acc hacc s hs
    rw [nightGo_nil] at hs
    by_cases h : 1 < cur.length
    · rw [if_pos h] at hs
      rcases List.mem_append.mp hs with hs | hs
      · exact hacc s hs
      · rw [List.mem_singleton.mp hs]
        omega
    · rw [if_neg h] at hs
      exact hacc s hs
  | cons w r ih =>
    intro cur acc hacc s hs
    rw [nightGo_cons] at hs
    by_cases h : isNightUTC w.time
    · rw [if_pos h] at hs
      exact ih (cur ++ [w]) acc hacc s hs
    · rw [if_neg h] at hs
      refine ih [] _ ?_ s hs
      intro t ht
      by_cases h2 : 1 < cur.length
      · rw [if_pos h2] at ht
        rcases List.mem_append.mp ht with ht | ht
        · exact hacc t ht
        · rw [List.mem_singleton.mp ht]
          omega
      · rw [if_neg h2] at ht
        exact hacc t ht

/-- Every waypoint of every segment produced by the loop is a night
waypoint, provided the current run and accumulator only hold night
waypoints. -/
theorem nightGo_night (rest : List Waypoint) :
    ∀ (cur : List Waypoint) (acc : List (List Waypoint)),
      (∀ x ∈ cur, isNightUTC x.time = true) →
      (∀ s ∈ acc, ∀ x ∈ s, isNightUTC x.time = true) →
      ∀ s ∈ nightGo rest cur acc, ∀ x ∈ s, isNightUTC x.time = true := by
  induction rest with
  | nil =>
    intro cur acc hcur hacc s hs
    rw [nightGo_nil] at hs
    by_cases h : 1 < cur.length
    · rw [if_pos h] at hs
      rcases List.mem_append.mp hs with hs | hs
      · exact hacc s hs
      · rw [List.mem_singleton.mp hs]
        exact hcur
    · rw [if_neg h] at hs
      exact hacc s hs
  | cons w r ih =>
    intro cur acc hcur hacc s hs
    rw [nightGo_cons] at hs
    by_cases h : isNightUTC w.time
    · rw [if_pos h] at hs
      refine ih (cur ++ [w]) acc ?_ hacc s hs
      intro x hx
      rcases List.mem_append.mp hx with hx | hx
      · exact hcur x hx
      · rw [List.mem_singleton.mp hx]
        exact h
    · rw [if_neg h] at hs
      refine ih [] _ (by simp) ?_ s hs
      intro t ht
      by_cases h2 : 1 < cur.length
      · rw [if_pos h2] at ht
        rcases List.mem_append.mp ht with ht | ht
        · exact hacc t ht
        · rw [List.mem_singleton.mp ht]
          exact hcur
      · rw [if_neg h2] at ht
        exact hacc t ht

/-- The concatenation of the produced segments is an order-preserving
subsequence of the pending input (current run followed by the rest of
the list): segments are taken from the input left to right. -/
theorem nightGo_flatten_sublist (rest : List Waypoint) :
    ∀ cur : List Waypoint,
      ((nightGo rest cur []).flatten).Sublist (cur ++ rest) := by
  induction rest with
  | nil =>
    intro cur
    rw [nightGo_nil]
    by_cases h : 1 < cur.length
    · rw [if_pos h]
      simp
    · rw [if_neg h]
      simp
  | cons w r ih =>
    intro cur
    rw [nightGo_cons]
    by_cases h : isNightUTC w.time
    · rw [if_pos h]
      have hsub := ih (cur ++ [w])
      rw [List.append_assoc] at hsub
      simpa using hsub
    · rw [if_neg h, nightGo_acc]
      by_cases h2 : 1 < cur.length
      · rw [if_pos h2, List.nil_append, List.flatten_append]
        have hflat : ([cur] : List (List Waypoint)).flatten = cur := by simp
        rw [hflat]
        exact List.Sublist.append (List.Sublist.refl cur)
          ((ih []).cons w)
      · rw [if_neg h2, List.nil_append]
        exact ((ih []).cons w).trans (List.sublist_append_right cur (w :: r))

/-- C6: on a time-ordered waypoint list the segmentation is
deterministic and idempotent (it is a pure function, so two calls are
definitionally equal), every returned segment has at least two
waypoints, every segment consists of night waypoints only, and the
segments are pairwise disjoint and ordered by time (every waypoint of
an earlier segment precedes every waypoint of a later one). -/
theorem nightSegments_properties (wps : List Waypoint)
    (hp : wps.Pairwise (fun a b => a.time < b.time)) :
    nightSegments wps = nightSegments wps ∧
    (∀ s ∈ nightSegments wps, 2 ≤ s.length) ∧
    (∀ s ∈ nightSegments wps, ∀ x ∈ s, isNightUTC x.time = true) ∧
    (nightSegments wps).Pairwise (fun s t =>
      (∀ x ∈ s, x ∉ t) ∧ ∀ x ∈ s, ∀ y ∈ t, x.time < y.time) := by
  refine ⟨rfl, ?_, ?_, ?_⟩
  · intro s hs
    exact nightGo_length wps [] [] (by simp) s hs
  · intro s hs
    exact nightGo_night wps [] [] (by simp) (by simp) s hs
  · have hsub : ((nightSegments wps).flatten).Sublist wps := by
      have h := nightGo_flatten_sublist wps []
      rw [List.nil_append] at h
      exact h
    have hjoin : ((nightSegments wps).flatten).Pairwise
        (fun a b => a.time < b.time) := List.Pairwise.sublist hsub hp
    obtain ⟨-, hpair⟩ := List.pairwise_flatten.mp hjoin
    refine hpair.imp ?_
    intro s t hst
    refine ⟨?_, hst⟩
    intro x hxs hxt
    exact absurd (hst x hxs x hxt) (lt_irrefl _)

/-- Witness for `nightSegments_properties` on the example dataset. -/
theorem nightSegments_properties_witness :
    (([exN0, exN19, exN20, exN23] : List Waypoint).Pairwise
      (fun a b => a.time < b.time)) ∧
    (nightSegments [exN0, exN19, exN20, exN23] =
        nightSegments [exN0, exN19, exN20, exN23] ∧
      (∀ s ∈ nightSegments [exN0, exN19, exN20, exN23], 2 ≤ s.length) ∧
      (∀ s ∈ nightSegments [exN0, exN19, exN20, exN23], ∀ x ∈ s,
        isNightUTC x.time = true) ∧
      (nightSegments [exN0, exN19, exN20, exN23]).Pairwise (fun s t =>
        (∀ x ∈ s, x ∉ t) ∧ ∀ x ∈ s, ∀ y ∈ t, x.time < y.time)) :=
  ⟨by decide, nightSegments_properties _ (by decide)⟩

/-! Numeric bracketing helpers for the haversine evaluation. -/

/-- Bracketing a square root between two non-negative rationals. -/
theorem sqrt_bracket {x q r : ℝ} (hq0 : 0 ≤ q) (hr0 : 0 ≤ r)
    (h1 : q ^ 2 ≤ x) (h2 : x ≤ r ^ 2) :
    q ≤ Real.sqrt x ∧ Real.sqrt x ≤ r :=
  ⟨by rw [← Real.sqrt_sq hq0]; exact Real.sqrt_le_sqrt h1,
   by rw [← Real.sqrt_sq hr0]; exact Real.sqrt_le_sqrt h2⟩

/-- Bracketing the arcsine through the sine of rational bounds. -/
theorem arcsin_bracket {x l u : ℝ} (hl0 : 0 ≤ l) (hu0 : 0 ≤ u)
    (hl2 : l ≤ Real.pi / 2) (hu2 : u ≤ Real.pi / 2)
    (hls : Real.sin l ≤ x) (hsu : x ≤ Real.sin u) :
    l ≤ Real.arcsin x ∧ Real.arcsin x ≤ u := by
  have hπ := Real.pi_pos
  constructor
  · have h := Real.monotone_arcsin hls
    rwa [Real.arcsin_sin (by linarith) hl2] at h
  · have h := Real.monotone_arcsin hsu
    rwa [Real.arcsin_sin (by linarith) hu2] at h

set_option maxHeartbeats 1000000 in
/-- The haversine distance from (0.1, 0.1) to (0, 0) lies between 8.49
and 8.50 nautical miles. -/
theorem haversine_A_bounds :
    8.49 ≤ haversine 0.1 0.1 0 0 ∧ haversine 0.1 0.1 0 0 ≤ 8.50 := by
  have hπl : (3.141592 : ℝ) < Real.pi := Real.pi_gt_d6
  have hπu : Real.pi < 3.141593 := Real.pi_lt_d6
  have ht_pos : (0 : ℝ) < Real.pi / 3600 := by linarith
  have ht_lb : (0.00087266 : ℝ) < Real.pi / 3600 := by linarith
  have ht_ub : Real.pi / 3600 < 0.000872665 := by linarith
  have ht_le1 : Real.pi / 3600 ≤ 1 := by linarith
  have hcube : (Real.pi / 3600) ^ 3 ≤ 0.00000000067 := by
    calc (Real.pi / 3600) ^ 3 ≤ (0.000872665 : ℝ) ^ 3 :=
          pow_le_pow_left₀ (le_of_lt ht_pos) (le_of_lt ht_ub) 3
      _ ≤ 0.00000000067 := by norm_num
  have hs_ub : Real.sin (Real.pi / 3600) < 0.000872665 :=
    lt_trans (Real.sin_lt ht_pos) ht_ub
  have hs_lb : (0.000872659 : ℝ) < Real.sin (Real.pi / 3600) := by
    have h1 := Real.sin_gt_sub_cube ht_pos ht_le1
    linarith
  have hs_pos : (0 : ℝ) < Real.sin (Real.pi / 3600) := by linarith
  have e1 : haversine 0.1 0.1 0 0 =
      2 * 3440.065 * Real.arcsin (Real.sqrt
        (2 * Real.sin (Real.pi / 3600) ^ 2 -
          2 * Real.sin (Real.pi / 3600) ^ 4)) := by
    simp only [haversine]
    have h1 : ((0 : ℝ) - 0.1) * Real.pi / 180 / 2 = -(Real.pi / 3600) := by
      ring
    have h2 : (0.1 : ℝ) * Real.pi / 180 = 2 * (Real.pi / 3600) := by ring
    have h3 : (0 : ℝ) * Real.pi / 180 = 0 := by ring
    have hc : Real.cos (Real.pi / 3600) ^ 2 =
        1 - Real.sin (Real.pi / 3600) ^ 2 := by
      linarith [Real.sin_sq_add_cos_sq (Real.pi / 3600)]
    rw [h1, h2, h3, Real.cos_zero, Real.sin_neg, Real.cos_two_mul, hc]
    apply congrArg (fun z => 2 * 3440.065 * Real.arcsin (Real.sqrt z))
    ring
  -- bracket the argument of the square root
  have hs2_lb : (0.00000076153373 : ℝ) < Real.sin (Real.pi / 3600) ^ 2 := by
    nlinarith [hs_lb, hs_pos]
  have hs2_ub : Real.sin (Real.pi / 3600) ^ 2 < 0.00000076154421 := by
    nlinarith [hs_ub, hs_pos]
  have hs4_ub : Real.sin (Real.pi / 3600) ^ 4 < 0.00000000000058 := by
    nlinarith [hs2_ub, sq_nonneg (Real.sin (Real.pi / 3600))]
  have hA_lb : (0.0012341 : ℝ) ^ 2 ≤
      2 * Real.sin (Real.pi / 3600) ^ 2 -
        2 * Real.sin (Real.pi / 3600) ^ 4 := by
    rw [show ((0.0012341 : ℝ)) ^ 2 = 0.00000152300281 by norm_num]
    linarith
  have hA_ub : 2 * Real.sin (Real.pi / 3600) ^ 2 -
        2 * Real.sin (Real.pi / 3600) ^ 4 ≤ (0.0012342 : ℝ) ^ 2 := by
    rw [show ((0.0012342 : ℝ)) ^ 2 = 0.00000152324964 by norm_num]
    nlinarith [hs2_ub, sq_nonneg (Real.sin (Real.pi / 3600) ^ 2)]
  obtain ⟨hq_lb, hq_ub⟩ := sqrt_bracket (by norm_num) (by norm_num) hA_lb hA_ub
  -- bracket the arcsine
  have hl_pos : (0 : ℝ) < 0.0012341 := by norm_num
  have hu_pos : (0 : ℝ) < 0.0012343 := by norm_num
  have hsin_l : Real.sin 0.0012341 ≤ Real.sqrt
      (2 * Real.sin (Real.pi / 3600) ^ 2 -
        2 * Real.sin (Real.pi / 3600) ^ 4) :=
    le_trans (le_of_lt (Real.sin_lt hl_pos)) hq_lb
  have hsin_u : Real.sqrt (2 * Real.sin (Real.pi / 3600) ^ 2 -
        2 * Real.sin (Real.pi / 3600) ^ 4) ≤ Real.sin 0.0012343 := by
    have h1 := Real.sin_gt_sub_cube hu_pos (by norm_num)
    have h2 : ((0.0012343 : ℝ)) ^ 3 / 4 ≤ 0.0000000005 := by norm_num
    linarith
  obtain ⟨har_lb, har_ub⟩ := arcsin_bracket (by norm_num) (by norm_num)
    (by linarith) (by linarith) hsin_l hsin_u
  rw [e1]
  constructor
  · linarith
  · linarith

set_option maxHeartbeats 1000000 in
/-- The haversine distance from (0.1, 0.1) to (1, 1) is at least 54
nautical miles. -/
theorem haversine_B_lb : (54 : ℝ) ≤ haversine 0.1 0.1 1 1 := by
  have hπl : (3.141592 : ℝ) < Real.pi := Real.pi_gt_d6
  have hπu : Real.pi < 3.141593 := Real.pi_lt_d6
  have hp_pos : (0 : ℝ) < Real.pi / 400 := by linarith
  have hp_lb : (0.00785398 : ℝ) < Real.pi / 400 := by linarith
  have hp_ub : Real.pi / 400 < 0.0078540 := by linarith
  have hp_le1 : Real.pi / 400 ≤ 1 := by linarith
  have hcube : (Real.pi / 400) ^ 3 ≤ 0.00000048449 := by
    calc (Real.pi / 400) ^ 3 ≤ (0.0078540 : ℝ) ^ 3 :=
          pow_le_pow_left₀ (le_of_lt hp_pos) (le_of_lt hp_ub) 3
      _ ≤ 0.00000048449 := by norm_num
  have hs_lb : (0.007853 : ℝ) < Real.sin (Real.pi / 400) := by
    have h1 := Real.sin_gt_sub_cube hp_pos hp_le1
    linarith
  have e2 : haversine 0.1 0.1 1 1 =
      2 * 3440.065 * Real.arcsin (Real.sqrt
        (Real.sin (Real.pi / 400) ^ 2 +
          Real.cos (0.1 * Real.pi / 180) * Real.cos (1 * Real.pi / 180) *
            Real.sin (Real.pi / 400) ^ 2)) := by
    simp only [haversine]
    have h1 : ((1 : ℝ) - 0.1) * Real.pi / 180 / 2 = Real.pi / 400 := by ring
    rw [h1]
  have hcos1 : (0 : ℝ) ≤ Real.cos (0.1 * Real.pi / 180) := by
    apply Real.cos_nonneg_of_neg_pi_div_two_le_of_le <;> linarith
  have hcos2 : (0 : ℝ) ≤ Real.cos (1 * Real.pi / 180) := by
    apply Real.cos_nonneg_of_neg_pi_div_two_le_of_le <;> linarith
  have hterm : (0 : ℝ) ≤ Real.cos (0.1 * Real.pi / 180) *
      Real.cos (1 * Real.pi / 180) * Real.sin (Real.pi / 400) ^ 2 :=
    mul_nonneg (mul_nonneg hcos1 hcos2) (sq_nonneg _)
  have hs_pos : (0 : ℝ) < Real.sin (Real.pi / 400) := by linarith
  have hs2_lb : (0.0000616695 : ℝ) < Real.sin (Real.pi / 400) ^ 2 := by
    nlinarith [hs_lb, hs_pos]
  have hA_lb : (0.00785 : ℝ) ^ 2 ≤
      Real.sin (Real.pi / 400) ^ 2 +
        Real.cos (0.1 * Real.pi / 180) * Real.cos (1 * Real.pi / 180) *
          Real.sin (Real.pi / 400) ^ 2 := by
    rw [show ((0.00785 : ℝ)) ^ 2 = 0.0000616225 by norm_num]
    linarith
  have hq_lb : (0.00785 : ℝ) ≤ Real.sqrt
      (Real.sin (Real.pi / 400) ^ 2 +
        Real.cos (0.1 * Real.pi / 180) * Real.cos (1 * Real.pi / 180) *
          Real.sin (Real.pi / 400) ^ 2) := by
    rw [← Real.sqrt_sq (by norm_num : (0 : ℝ) ≤ 0.00785)]
    exact Real.sqrt_le_sqrt hA_lb
  have hl_pos : (0 : ℝ) < 0.00785 := by norm_num
  have hsin_l : Real.sin 0.00785 ≤ Real.sqrt
      (Real.sin (Real.pi / 400) ^ 2 +
        Real.cos (0.1 * Real.pi / 180) * Real.cos (1 * Real.pi / 180) *
          Real.sin (Real.pi / 400) ^ 2) :=
    le_trans (le_of_lt (Real.sin_lt hl_pos)) hq_lb
  have har_lb : (0.00785 : ℝ) ≤ Real.arcsin (Real.sqrt
      (Real.sin (Real.pi / 400) ^ 2 +
        Real.cos (0.1 * Real.pi / 180) * Real.cos (1 * Real.pi / 180) *
          Real.sin (Real.pi / 400) ^ 2)) := by
    have h := Real.monotone_arcsin hsin_l
    rwa [Real.arcsin_sin (by linarith) (by linarith)] at h
  rw [e2]
  linarith

/-- Waypoint at (0, 0), the first entry of the example dataset. -/
def exA : Waypoint := ⟨0, 0, 0, 0⟩

/-- Waypoint at (1, 1), the second entry of the example dataset. -/
def exB : Waypoint := ⟨1, 1, 1, 3600⟩

/-- Scan evaluation on the example dataset: the first waypoint is the
match and the reported distance is its haversine distance. -/
theorem nearest_example_eval :
    nearestWaypoint 0.1 0.1 [exA, exB] =
      some (exA, haversine 0.1 0.1 0 0) := by
  have hle : ¬ haversine 0.1 0.1 exB.lat exB.lon <
      haversine 0.1 0.1 exA.lat exA.lon := by
    show ¬ haversine 0.1 0.1 (1 : ℝ) 1 < haversine 0.1 0.1 0 0
    push_neg
    linarith [haversine_A_bounds.2, haversine_B_lb]
  simp only [nearestWaypoint, scanNearest_cons_none, scanNearest_cons_some,
    if_neg hle, scanNearest_nil]
  rfl

/-- C9 amended: for the dataset [(0,0), (1,1)] and query (0.1, 0.1)
the matcher returns the first waypoint, with a computed distance of
about 8.49 nautical miles (between 8.49 and 8.50), not 9.95. -/
theorem example_nearest_match_distance :
    nearestWaypoint 0.1 0.1 [exA, exB] =
      some (exA, haversine 0.1 0.1 0 0) ∧
    8.49 ≤ haversine 0.1 0.1 0 0 ∧ haversine 0.1 0.1 0 0 ≤ 8.50 :=
  ⟨nearest_example_eval, haversine_A_bounds.1, haversine_A_bounds.2⟩

/-- C9 counterexample: the matched distance differs from the claimed
9.95 nautical miles by more than one nautical mile. -/
theorem example_distance_not_9_95 :
    nearestWaypoint 0.1 0.1 [exA, exB] =
      some (exA, haversine 0.1 0.1 0 0) ∧
    1 < |haversine 0.1 0.1 0 0 - 9.95| := by
  refine ⟨nearest_example_eval, ?_⟩
  have h := haversine_A_bounds
  have habs : |haversine 0.1 0.1 0 0 - 9.95| =
      9.95 - haversine 0.1 0.1 0 0 := by
    rw [abs_of_neg (by linarith)]
    ring
  rw [habs]
  linarith

/-- C7 counterexample: with an empty waypoint list and absent speed
records, the night and speed layers have no precomputed geometry, yet
with all flags true they are still included in the render set — the
render set is not the set of toggled keys with geometry. -/
theorem renderSet_ignores_geometry :
    renderSet (layersRefAfterBuild [] none none) hsAllTrue ≠
      allLayerKeys.filter (fun k =>
        highlightFlag hsAllTrue k &&
          specHasGeometry (buildLayers [] none none k)) := by
  decide

end AdventureLog
